import Mathlib

/-!
Verification of the template/heuristic code-generation core of
`prakashgbid/codeforge-ai` (file `src/auto_coder/core.py`).

The Python source is shallowly embedded below.  Pure string processing is
translated to executable Lean functions over `String` / `List Char`; the
external collaborators (the `ast` parser, the LLM engine, the event-loop
clock) are passed in as oracle parameters; the filesystem is modelled as a
partial map from path strings to file contents, and the stateful
`CodeGenerator` operations are written in explicit state-passing style.
Python floats carrying quality scores are modelled as rationals, which is
faithful for the clamping and dispatch facts proved here.
-/

set_option linter.all false

namespace AutoCoder

/-- The `ProgrammingLanguage` enum of the source. -/
inductive ProgrammingLanguage
  | python | javascript | typescript | go | rust | java | cpp | shell
  deriving DecidableEq, Repr

/-- The `CodeType` enum of the source (`class` is a Lean keyword, hence `class_`). -/
inductive CodeType
  | function | class_ | module | script | test | refactor | optimization | documentation | self_modification
  deriving DecidableEq, Repr

/-- `ProgrammingLanguage.value` (the string payload of each enum member). -/
def languageValue : ProgrammingLanguage → String
  | .python => "python"
  | .javascript => "javascript"
  | .typescript => "typescript"
  | .go => "go"
  | .rust => "rust"
  | .java => "java"
  | .cpp => "cpp"
  | .shell => "shell"

/-- `CodeType.value` (the string payload of each enum member). -/
def codeTypeValue : CodeType → String
  | .function => "function"
  | .class_ => "class"
  | .module => "module"
  | .script => "script"
  | .test => "test"
  | .refactor => "refactor"
  | .optimization => "optimization"
  | .documentation => "documentation"
  | .self_modification => "self_modification"

/-! ### String utilities shared by the embedded operations -/

/-- ASCII fragment of Python's `str.strip()` whitespace set. -/
def pyIsSpace (c : Char) : Bool :=
  c = ' ' || c = '\t' || c = '\n' || c = '\r' || c = '\x0b' || c = '\x0c'

/-- Python's `str.strip()` on character lists. -/
def stripChars (l : List Char) : List Char :=
  ((l.dropWhile pyIsSpace).reverse.dropWhile pyIsSpace).reverse

/-- Python's `str.strip()`. -/
def pyStrip (s : String) : String := ⟨stripChars s.data⟩

/-- Python's substring test `pat in s`, on character lists. -/
def listContains (s pat : List Char) : Bool :=
  match s with
  | [] => pat.isEmpty
  | c :: t => pat.isPrefixOf (c :: t) || listContains t pat

/-- A word character in the sense of the ASCII class `[a-zA-Z0-9_]`. -/
def isWordChar (c : Char) : Bool :=
  ('a' ≤ c && c ≤ 'z') || ('A' ≤ c && c ≤ 'Z') || ('0' ≤ c && c ≤ '9') || c = '_'

/-! ### Quality heuristics (`_analyze_python`, `_analyze_javascript`,
`_analyze_code_quality`) -/

/-- The final clamp `max(0.0, min(1.0, score))` used by both analyzers. -/
def clamp01 (score : ℚ) : ℚ := max 0 (min 1 score)

/-- The facts about a parsed Python tree that `_analyze_python` inspects:
how many function/class/async-function definitions lack a docstring, and
whether any `try` block occurs. -/
structure PyParseOk where
  missing_docstrings : Nat
  has_try : Bool

/-- `_analyze_python`, with `ast.parse` supplied as an oracle: `none` models a
`SyntaxError` (caught by the source and collapsed to the score 0.0), `some`
carries the tree facts the source reads off the parsed tree. -/
def analyze_python (parse : String → Option PyParseOk) (code : String) : ℚ :=
  match parse code with
  | none => clamp01 0
  | some t =>
    let score : ℚ := 1 - (t.missing_docstrings : ℚ) * (1/10)
    let score := if !t.has_try && code.length > 100 then score - 1/10 else score
    let score := if !(listContains code.data "->".data) && code.length > 50 then score - 1/20 else score
    clamp01 score

/-- `_analyze_javascript`. -/
def analyze_javascript (code : String) : ℚ :=
  let score : ℚ := 1
  let score := if listContains code.data "var ".data then score - 1/10 else score
  let score := if listContains code.data "console.log".data then score - 1/20 else score
  let score := if !(listContains code.data "try".data || listContains code.data "catch".data ||
      listContains code.data ".catch".data) then score - 1/10 else score
  clamp01 score

/-- `_analyze_code_quality`: dispatch through the `analyzers` table
(`python` and `javascript` keys only), default 0.5. -/
def analyze_code_quality (parse : String → Option PyParseOk)
    (language : ProgrammingLanguage) (code : String) : ℚ :=
  match language with
  | .python => analyze_python parse code
  | .javascript => analyze_javascript code
  | _ => 1/2

lemma clamp01_nonneg (s : ℚ) : 0 ≤ clamp01 s := le_max_left 0 _

lemma clamp01_le_one (s : ℚ) : clamp01 s ≤ 1 :=
  max_le (by norm_num) (min_le_left 1 s)

/-- C1: for every input string, every supported language and every behaviour of
the external parser, `_analyze_code_quality` returns a score in [0, 1]: the
Python and JavaScript analyzers clamp their result to [0, 1] and every other
language gets the fixed value 0.5. -/
theorem quality_score_in_unit_interval (parse : String → Option PyParseOk)
    (language : ProgrammingLanguage) (code : String) :
    0 ≤ analyze_code_quality parse language code ∧
      analyze_code_quality parse language code ≤ 1 := by
  cases language <;>
    simp only [analyze_code_quality, analyze_python, analyze_javascript]
  case python =>
    cases parse code <;> exact ⟨clamp01_nonneg _, clamp01_le_one _⟩
  case javascript => exact ⟨clamp01_nonneg _, clamp01_le_one _⟩
  all_goals norm_num

/-- C8: whenever the parse oracle reports a `SyntaxError` (the source catches it
locally), `_analyze_python` returns exactly 0; the embedding is a total
function, so no exception escapes to the caller. -/
theorem analyze_python_syntax_error_zero (parse : String → Option PyParseOk)
    (code : String) (h : parse code = none) :
    analyze_python parse code = 0 := by
  simp [analyze_python, h, clamp01]

/-- A concrete syntactically invalid input scores 0. -/
theorem analyze_python_syntax_error_zero_witness :
    analyze_python (fun _ => none) "def f(:" = 0 :=
  analyze_python_syntax_error_zero (fun _ => none) "def f(:" rfl

/-! ### Path machinery (`pathlib.Path` fragment used by the source):
splitting on `/`, `Path.match` against the allow-list globs, and
`Path.with_suffix`. -/

/-- Python's `str.split(sep)` for a single separator character: always returns a
non-empty list whose pieces are free of the separator, e.g.
`splitChar '/' "a//b" = ["a", "", "b"]`. -/
def splitChar (sep : Char) : List Char → List (List Char)
  | [] => [[]]
  | c :: cs =>
    if c = sep then [] :: splitChar sep cs
    else
      match splitChar sep cs with
      | [] => [[c]]
      | p :: ps => (c :: p) :: ps

/-- Inverse of `splitChar`: join pieces with the separator. -/
def joinChar (sep : Char) : List (List Char) → List Char
  | [] => []
  | [p] => p
  | p :: ps => p ++ sep :: joinChar sep ps

/-- Does `f` accept some suffix of the list (the list itself included)?  This
is how a `*` consumes an arbitrary run of characters. -/
def globStar (f : List Char → Bool) : List Char → Bool
  | [] => f []
  | d :: s' => f (d :: s') || globStar f s'

/-- `fnmatch`-style glob matching restricted to literals and `*` (the only
constructs appearing in the source's allow-list patterns); `*` matches any
run of characters within one component. -/
def globMatch : List Char → List Char → Bool
  | [], s => s.isEmpty
  | c :: p' , s =>
    if c = '*' then globStar (globMatch p') s
    else
      match s with
      | [] => false
      | d :: s' => c = d && globMatch p' s'

/-- The components of a path string, as `pathlib` normalizes them: split on `/`
and drop empty and `"."` components. -/
def normParts (s : String) : List (List Char) :=
  (splitChar '/' s.data).filter (fun p => !p.isEmpty && p ≠ ['.'])

/-- `PurePath.match` for a relative pattern: the trailing components of the path
must match the pattern's components one-for-one. -/
def pathMatch (path pattern : String) : Bool :=
  let pp := normParts path
  let qp := normParts pattern
  decide (qp.length ≤ pp.length) &&
    (pp.reverse.zip qp.reverse).all (fun pr => globMatch pr.2 pr.1)

/-- The fixed allow-list of `_is_safe_to_modify`. -/
def safe_patterns : List String := ["osa_*.py", "src/core/*.py", "src/plugins/*.py"]

/-- `_is_safe_to_modify`. -/
def is_safe_to_modify (target_file : String) : Bool :=
  safe_patterns.any (fun pattern => pathMatch target_file pattern)

/-- The index of the last occurrence of `c` in `l`, if any. -/
def lastIdxOf (c : Char) (l : List Char) : Option Nat :=
  match l with
  | [] => none
  | d :: t =>
    match lastIdxOf c t with
    | some i => some (i + 1)
    | none => if d = c then some 0 else none

/-- Suffix replacement on a bare file name, as `PurePath.with_suffix` does it: a
name has a suffix when its last dot is neither leading nor trailing; the
part from that dot on is replaced, otherwise the new suffix is appended. -/
def replaceSuffix (name suffix : List Char) : List Char :=
  match lastIdxOf '.' name with
  | some i => if 0 < i ∧ i + 1 < name.length then name.take i ++ suffix else name ++ suffix
  | none => name ++ suffix

/-- `Path.with_suffix`: replace the suffix of the last path component. -/
def with_suffix (path suffix : String) : String :=
  ⟨joinChar '/' ((splitChar '/' path.data).dropLast ++
    [replaceSuffix ((splitChar '/' path.data).getLastD []) suffix.data])⟩

/-! ### Response extraction (`_extract_code_from_response`) -/

/-- Does the text start with the three-backtick fence marker `\x60\x60\x60`? -/
def startsWithTicks (s : List Char) : Bool :=
  match s with
  | c1 :: c2 :: c3 :: _ => c1 = '\x60' && c2 = '\x60' && c3 = '\x60'
  | _ => false

/-- After an opening fence: the optional language tag `(?:\w+)?` followed by a
mandatory newline.  Backtracking inside the word run can never expose a
newline, so the regex accepts here exactly when the maximal word run is
followed by a newline; returns the text after that newline. -/
def fenceBody (s : List Char) : Option (List Char) :=
  match s.dropWhile isWordChar with
  | '\n' :: rest => some rest
  | _ => none

/-- Split at the first closing fence: the lazy `(.*?)` payload up to the
earliest following three-backtick marker, plus the remainder after it. -/
def splitAtTicks : List Char → Option (List Char × List Char)
  | [] => none
  | c :: cs =>
    if startsWithTicks (c :: cs) then some ([], (c :: cs).drop 3)
    else (splitAtTicks cs).map (fun pr => (c :: pr.1, pr.2))

/-- The first (leftmost) match of `re.findall('```(?:\w+)?\n(.*?)```', response,
re.DOTALL)`: scan positions left to right; at each position require an opening
fence with optional tag and newline and an eventual closing fence; the captured
payload is lazily matched, i.e. stops at the first closing fence. -/
def findFirstFence : List Char → Option (List Char)
  | [] => none
  | c :: cs =>
    match (if startsWithTicks (c :: cs) then fenceBody ((c :: cs).drop 3) else none) with
    | some afterOpen =>
      match splitAtTicks afterOpen with
      | some pr => some pr.1
      | none => findFirstFence cs
    | none => findFirstFence cs

/-- The narrative markers of the line-filter fallback. -/
def narrative_markers : List String := ["here", "this", "the following", "code:", "example:"]

/-- `_extract_code_from_response`: first fenced block if any, else the
line-filter fallback. -/
def extract_code_from_response (response : String) : String :=
  match findFirstFence response.data with
  | some payload => pyStrip ⟨payload⟩
  | none =>
    let lines := splitChar '\n' response.data
    let code_lines := lines.filter (fun line =>
      !(narrative_markers.any (fun m => listContains (line.map Char.toLower) m.data)))
    pyStrip ⟨joinChar '\n' code_lines⟩

/-! ### Self-modification state machine (`self_modify`, `_validate_modification`,
`rollback_modification`, `get_modification_history`) -/

/-- One entry of `modification_history` (the dict appended by `self_modify`). -/
structure ModRecord where
  file : String
  request : String
  timestamp : ℚ
  backup : String
  deriving DecidableEq

/-- The mutable state touched by self-modification: the filesystem (a partial
map from path to content) and the generator's `modification_history` list. -/
structure GenState where
  fs : String → Option String
  modification_history : List ModRecord

/-- A filesystem write (`Path.write_text`). -/
def fsWrite (fs : String → Option String) (path content : String) : String → Option String :=
  fun q => if q = path then some content else fs q

/-- The prompt of `_generate_modification`. -/
def build_modification_prompt (original_code request : String) : String :=
  "Modify the following code according to the request:\n\nOriginal Code:\n```python\n" ++
    original_code ++ "\n```\n\nModification Request:\n" ++ request ++
    "\n\nRequirements:\n- Preserve existing functionality unless explicitly changed\n- Maintain code style and conventions\n- Add appropriate error handling\n- Include comments for significant changes\n- Ensure backward compatibility\n\nGenerate the complete modified code:\n"

/-- `_generate_modification`: query the LLM oracle and extract the code. -/
def generate_modification (llm : String → String) (original_code request : String) : String :=
  extract_code_from_response (llm (build_modification_prompt original_code request))

/-- `_validate_modification`: parse the modified code (a `SyntaxError` from the
oracle rejects), reject when the stripped length is below 10 or the code is
unchanged. -/
def validate_modification (parse : String → Option PyParseOk) (original modified : String) : Bool :=
  match parse modified with
  | none => false
  | some _ =>
    if (pyStrip modified).length < 10 then false
    else if original = modified then false
    else true

/-- `self_modify`: the guard sequence (allow-list, existence, engine,
validation) followed by backup write, target overwrite and history append.
The LLM engine is `none` when no `langchain_engine` is configured; `now` is
the event-loop timestamp. -/
def self_modify (parse : String → Option PyParseOk) (llm : Option (String → String)) (now : ℚ)
    (st : GenState) (target_file modification_request : String) : Bool × GenState :=
  if !(is_safe_to_modify target_file) then (false, st)
  else
    match st.fs target_file with
    | none => (false, st)
    | some original_code =>
      match llm with
      | none => (false, st)
      | some engine =>
        let modified_code := generate_modification engine original_code modification_request
        if !(validate_modification parse original_code modified_code) then (false, st)
        else
          let backup_path := with_suffix target_file ".bak"
          (true,
            { fs := fsWrite (fsWrite st.fs backup_path original_code) target_file modified_code,
              modification_history := st.modification_history ++
                [⟨target_file, modification_request, now, backup_path⟩] })

/-- The scan loop of `rollback_modification` over the reversed history: the
content of the backup of the first (newest) record for the file whose backup
still exists; records whose backup is gone are skipped, not fatal. -/
def rollbackScan (fs : String → Option String) (file_path : String) : List ModRecord → Option String
  | [] => none
  | mod :: rest =>
    if mod.file = file_path then
      match fs mod.backup with
      | some backup_content => some backup_content
      | none => rollbackScan fs file_path rest
    else rollbackScan fs file_path rest

/-- `rollback_modification`. -/
def rollback_modification (st : GenState) (file_path : String) : Bool × GenState :=
  match rollbackScan st.fs file_path st.modification_history.reverse with
  | some backup_content => (true, { st with fs := fsWrite st.fs file_path backup_content })
  | none => (false, st)

/-- C2: a target path outside the allow-list makes `self_modify` fail with the
state — filesystem and modification history — completely untouched. -/
theorem self_modify_unsafe_rejected (parse : String → Option PyParseOk)
    (llm : Option (String → String)) (now : ℚ) (st : GenState)
    (target_file modification_request : String)
    (h : is_safe_to_modify target_file = false) :
    self_modify parse llm now st target_file modification_request = (false, st) := by
  simp [self_modify, h]

/-- A concrete disallowed path is rejected without any state change. -/
theorem self_modify_unsafe_rejected_witness :
    self_modify (fun _ => none) none 0 ⟨fun _ => none, []⟩ "notes.txt" "tweak" =
      (false, ⟨fun _ => none, []⟩) :=
  self_modify_unsafe_rejected (fun _ => none) none 0 ⟨fun _ => none, []⟩ "notes.txt" "tweak"
    (by decide)

/-- An always-succeeding parse oracle (every string is syntactically valid). -/
def parseAll : String → Option PyParseOk := fun _ => some ⟨0, false⟩

/-- A counterexample to C9 as stated: a modified text whose trimmed length is
exactly 10 — not exceeding 10 — is still accepted by `_validate_modification`
(the source rejects only lengths strictly below 10). -/
theorem validate_modification_len10_counterexample :
    validate_modification parseAll "" "x=12345678" = true ∧
      ¬ ((pyStrip "x=12345678").length > 10) := by
  constructor
  · decide
  · decide

/-- C9 (amended): `_validate_modification` accepts exactly when the modified
code parses, differs from the original, and its trimmed length is at least 10. -/
theorem validate_modification_iff (parse : String → Option PyParseOk) (original modified : String) :
    validate_modification parse original modified = true ↔
      ((parse modified).isSome ∧ modified ≠ original ∧ 10 ≤ (pyStrip modified).length) := by
  cases h : parse modified <;>
    simp [validate_modification, h, Nat.not_lt, and_comm, eq_comm (a := original)]

/-- A concrete accepted modification, through the amended characterization. -/
theorem validate_modification_iff_witness :
    validate_modification parseAll "a" "x = 1 + 23456" = true :=
  (validate_modification_iff parseAll "a" "x = 1 + 23456").mpr (by decide)

/-- The rollback history of the C7 counterexample: two records for `f.py`, the
newer one (`b2`) with a missing backup file, the older one (`b1`) intact. -/
def stC : GenState :=
  { fs := fun p => if p = "f.py" then some "current" else if p = "b1" then some "old1" else none,
    modification_history := [⟨"f.py", "first", 0, "b1"⟩, ⟨"f.py", "second", 1, "b2"⟩] }

/-- A counterexample to C7 as stated: the newest matching record's backup (`b2`)
no longer exists, yet `rollback_modification` does not fail — it keeps
scanning, restores from the older backup `b1` and reports success. -/
theorem rollback_skips_missing_backup_counterexample :
    stC.fs "b2" = none ∧
      (rollback_modification stC "f.py").1 = true ∧
      ((rollback_modification stC "f.py").2).fs "f.py" = some "old1" := by
  refine ⟨by decide, by decide, by decide⟩

/-- The scan finds a backup exactly when some matching record's backup exists. -/
lemma rollbackScan_isSome_iff (fs : String → Option String) (f : String) :
    ∀ l : List ModRecord,
      (rollbackScan fs f l).isSome ↔ ∃ mod ∈ l, mod.file = f ∧ (fs mod.backup).isSome
  | [] => by simp [rollbackScan]
  | mod :: rest => by
    by_cases hf : mod.file = f
    · cases hb : fs mod.backup with
      | some c => simp [rollbackScan, hf, hb]
      | none => simp [rollbackScan, hf, hb, rollbackScan_isSome_iff fs f rest]
    · simp [rollbackScan, hf, rollbackScan_isSome_iff fs f rest]

/-- C7 (amended): `rollback_modification` scans the history newest-first and
restores the target from the newest matching record whose backup file still
exists, reporting success; it reports failure, with no write, exactly when no
record for the path has a surviving backup — a missing backup on the newest
matching record alone does not cause failure. -/
theorem rollback_modification_characterization (st : GenState) (f : String) :
    (∀ c, rollbackScan st.fs f st.modification_history.reverse = some c →
        rollback_modification st f = (true, { st with fs := fsWrite st.fs f c })) ∧
      (rollbackScan st.fs f st.modification_history.reverse = none →
        rollback_modification st f = (false, st)) ∧
      ((rollbackScan st.fs f st.modification_history.reverse).isSome ↔
        ∃ mod ∈ st.modification_history, mod.file = f ∧ (st.fs mod.backup).isSome) := by
  refine ⟨fun c hc => by simp [rollback_modification, hc], fun hn => by simp [rollback_modification, hn], ?_⟩
  rw [rollbackScan_isSome_iff]
  constructor
  · rintro ⟨mod, hm, hrest⟩
    exact ⟨mod, List.mem_reverse.mp hm, hrest⟩
  · rintro ⟨mod, hm, hrest⟩
    exact ⟨mod, List.mem_reverse.mpr hm, hrest⟩

/-- The rollback state of the C7 witness: one record with a surviving backup. -/
def stW7 : GenState :=
  ⟨fun p => if p = "bk" then some "old" else if p = "t.py" then some "new" else none,
    [⟨"t.py", "r", 0, "bk"⟩]⟩

/-- A concrete successful rollback, through the amended characterization. -/
theorem rollback_modification_characterization_witness :
    rollback_modification stW7 "t.py" = (true, { stW7 with fs := fsWrite stW7.fs "t.py" "old" }) :=
  (rollback_modification_characterization stW7 "t.py").1 "old" (by decide)

/-! ### Lemmas about path splitting, glob matching and suffix replacement,
leading to the backup round trip of `self_modify` -/

lemma splitChar_ne_nil (sep : Char) (l : List Char) : splitChar sep l ≠ [] := by
  cases l with
  | nil => simp [splitChar]
  | cons c cs =>
    simp only [splitChar]
    split
    · simp
    · split <;> simp

lemma sep_not_mem_splitChar (sep : Char) (l : List Char) :
    ∀ p ∈ splitChar sep l, sep ∉ p := by
  induction l with
  | nil =>
    intro p hp
    simp only [splitChar, List.mem_singleton] at hp
    simp [hp]
  | cons c cs ih =>
    intro p hp
    simp only [splitChar] at hp
    by_cases hc : c = sep
    · rw [if_pos hc] at hp
      rcases List.mem_cons.mp hp with h | h
      · simp [h]
      · exact ih p h
    · rw [if_neg hc] at hp
      cases hs : splitChar sep cs with
      | nil => exact absurd hs (splitChar_ne_nil sep cs)
      | cons q qs =>
        rw [hs] at hp
        rcases List.mem_cons.mp hp with h | h
        · subst h
          intro hm
          rcases List.mem_cons.mp hm with h' | h'
          · exact hc h'.symm
          · exact ih q (by simp [hs]) h'
        · exact ih p (by simp [hs, h])

lemma joinChar_splitChar (sep : Char) (l : List Char) :
    joinChar sep (splitChar sep l) = l := by
  induction l with
  | nil => rfl
  | cons c cs ih =>
    simp only [splitChar]
    by_cases hc : c = sep
    · rw [if_pos hc]
      cases hs : splitChar sep cs with
      | nil => exact absurd hs (splitChar_ne_nil sep cs)
      | cons q qs =>
        rw [hs] at ih
        simp only [joinChar]
        rw [ih, hc]
        rfl
    · rw [if_neg hc]
      cases hs : splitChar sep cs with
      | nil => exact absurd hs (splitChar_ne_nil sep cs)
      | cons q qs =>
        rw [hs] at ih
        cases qs with
        | nil =>
          simp only [joinChar] at ih ⊢
          rw [ih]
        | cons r rs =>
          simp only [joinChar] at ih ⊢
          rw [List.cons_append, ih]

lemma splitChar_noSep (sep : Char) (p : List Char) (h : sep ∉ p) :
    splitChar sep p = [p] := by
  induction p with
  | nil => rfl
  | cons c cs ih =>
    have hc : ¬ c = sep := fun e => h (e ▸ List.mem_cons_self c cs)
    have ih' := ih (fun hm => h (List.mem_cons_of_mem _ hm))
    simp only [splitChar, if_neg hc, ih']

lemma splitChar_append_sep (sep : Char) (p l : List Char) (h : sep ∉ p) :
    splitChar sep (p ++ sep :: l) = p :: splitChar sep l := by
  induction p with
  | nil => simp [splitChar]
  | cons c cs ih =>
    have hc : ¬ c = sep := fun e => h (e ▸ List.mem_cons_self c cs)
    have ih' := ih (fun hm => h (List.mem_cons_of_mem _ hm))
    simp only [List.cons_append, splitChar, List.append_eq, if_neg hc, ih']

lemma splitChar_joinChar (sep : Char) :
    ∀ ps : List (List Char), ps ≠ [] → (∀ p ∈ ps, sep ∉ p) →
      splitChar sep (joinChar sep ps) = ps
  | [], h, _ => absurd rfl h
  | [p], _, hs => by
    simpa [joinChar] using splitChar_noSep sep p (hs p (by simp))
  | p :: q :: ps, _, hs => by
    have h1 : sep ∉ p := hs p (by simp)
    have ih := splitChar_joinChar sep (q :: ps) (by simp)
      (fun r hr => hs r (List.mem_cons_of_mem _ hr))
    simp only [joinChar]
    rw [splitChar_append_sep sep p (joinChar sep (q :: ps)) h1, ih]

lemma globMatch_nil_eq (s : List Char) : globMatch [] s = s.isEmpty := rfl

lemma globMatch_cons_eq (c : Char) (p' s : List Char) :
    globMatch (c :: p') s =
      if c = '*' then globStar (globMatch p') s
      else
        match s with
        | [] => false
        | d :: s' => c = d && globMatch p' s' := rfl

lemma globMatch_literal : ∀ p s : List Char, '*' ∉ p → globMatch p s = true → s = p
  | [], s, _, h => by simpa [globMatch_nil_eq, List.isEmpty_iff] using h
  | c :: p', s, hst, h => by
    have hc : ¬ c = '*' := fun e => hst (e ▸ List.mem_cons_self c p')
    rw [globMatch_cons_eq, if_neg hc] at h
    cases s with
    | nil => cases h
    | cons d s' =>
      simp only [Bool.and_eq_true, decide_eq_true_eq] at h
      obtain ⟨rfl, h2⟩ := h
      have := globMatch_literal p' s' (fun hm => hst (List.mem_cons_of_mem _ hm)) h2
      rw [this]

lemma globStar_suffix (q : List Char) (hq : '*' ∉ q) :
    ∀ s : List Char, globStar (globMatch q) s = true → q <:+ s
  | [], h => by
    simp only [globStar] at h
    simp [globMatch_literal q [] hq h]
  | d :: s', h => by
    simp only [globStar, Bool.or_eq_true] at h
    rcases h with h1 | h2
    · rw [globMatch_literal q (d :: s') hq h1]
    · exact (globStar_suffix q hq s' h2).trans (List.suffix_cons d s')

lemma globMatch_star_suffix :
    ∀ pre : List Char, ∀ post s : List Char, '*' ∉ post →
      globMatch (pre ++ '*' :: post) s = true → post <:+ s
  | [], post, s, hpost, h => by
    rw [List.nil_append, globMatch_cons_eq, if_pos rfl] at h
    exact globStar_suffix post hpost s h
  | c :: pre', post, s, hpost, h => by
    rw [List.cons_append, globMatch_cons_eq] at h
    by_cases hc : c = '*'
    · rw [if_pos hc] at h
      -- a `*` anywhere only widens what is matched; the tail still has to
      -- match some suffix, from which the literal tail is still a suffix
      induction s with
      | nil =>
        simp only [globStar] at h
        have := globMatch_star_suffix pre' post [] hpost h
        exact this
      | cons d s' ihs =>
        simp only [globStar, Bool.or_eq_true] at h
        rcases h with h1 | h2
        · exact globMatch_star_suffix pre' post (d :: s') hpost h1
        · exact (ihs h2).trans (List.suffix_cons d s')
    · rw [if_neg hc] at h
      cases s with
      | nil => cases h
      | cons d s' =>
        simp only [Bool.and_eq_true, decide_eq_true_eq] at h
        exact (globMatch_star_suffix pre' post s' hpost h.2).trans (List.suffix_cons d s')

lemma pathMatch_last (t pat : String) (g : List Char)
    (h : pathMatch t pat = true) (hg : (normParts pat).getLast? = some g) :
    ∃ nm, (normParts t).getLast? = some nm ∧ globMatch g nm = true := by
  simp only [pathMatch, Bool.and_eq_true, decide_eq_true_eq, List.all_eq_true] at h
  obtain ⟨hlen, hall⟩ := h
  rw [← List.head?_reverse] at hg
  cases hq : (normParts pat).reverse with
  | nil => rw [hq] at hg; cases hg
  | cons g0 gr =>
    rw [hq] at hg
    injection hg with hg0
    cases hp : (normParts t).reverse with
    | nil =>
      exfalso
      have h1 : (normParts t).length = 0 := by
        simpa using congrArg List.length hp
      have h2 : 0 < (normParts pat).length := by
        have := congrArg List.length hq
        simp at this
        omega
      omega
    | cons nm pr =>
      refine ⟨nm, ?_, ?_⟩
      · rw [← List.head?_reverse, hp]
        rfl
      · have := hall (nm, g0) (by rw [hp, hq]; simp)
        rw [hg0] at this
        simpa using this

lemma safe_last_py (t : String) (h : is_safe_to_modify t = true) :
    ∃ nm, (normParts t).getLast? = some nm ∧ ".py".data <:+ nm := by
  have h' : pathMatch t "osa_*.py" = true ∨ pathMatch t "src/core/*.py" = true ∨
      pathMatch t "src/plugins/*.py" = true := by
    simpa [is_safe_to_modify, safe_patterns, Bool.or_eq_true] using h
  rcases h' with h1 | h1 | h1
  · obtain ⟨nm, hn, hm⟩ := pathMatch_last t "osa_*.py" "osa_*.py".data h1 (by decide)
    exact ⟨nm, hn, globMatch_star_suffix "osa_".data ".py".data nm (by decide)
      (show globMatch ("osa_".data ++ '*' :: ".py".data) nm = true from hm)⟩
  · obtain ⟨nm, hn, hm⟩ := pathMatch_last t "src/core/*.py" "*.py".data h1 (by decide)
    exact ⟨nm, hn, globMatch_star_suffix [] ".py".data nm (by decide)
      (show globMatch ([] ++ '*' :: ".py".data) nm = true from hm)⟩
  · obtain ⟨nm, hn, hm⟩ := pathMatch_last t "src/plugins/*.py" "*.py".data h1 (by decide)
    exact ⟨nm, hn, globMatch_star_suffix [] ".py".data nm (by decide)
      (show globMatch ([] ++ '*' :: ".py".data) nm = true from hm)⟩

lemma suffix_replaceSuffix (name suffix : List Char) : suffix <:+ replaceSuffix name suffix := by
  cases h : lastIdxOf '.' name with
  | none =>
    simp only [replaceSuffix, h]
    exact List.suffix_append _ _
  | some i =>
    simp only [replaceSuffix, h]
    split
    · exact List.suffix_append _ _
    · exact List.suffix_append _ _

lemma not_mem_replaceSuffix (name suffix : List Char) (c : Char)
    (h1 : c ∉ name) (h2 : c ∉ suffix) : c ∉ replaceSuffix name suffix := by
  cases h : lastIdxOf '.' name with
  | none =>
    simp only [replaceSuffix, h]
    intro hm
    rcases List.mem_append.mp hm with hx | hx
    exacts [h1 hx, h2 hx]
  | some i =>
    simp only [replaceSuffix, h]
    split
    · intro hm
      rcases List.mem_append.mp hm with hx | hx
      exacts [h1 (List.take_subset i name hx), h2 hx]
    · intro hm
      rcases List.mem_append.mp hm with hx | hx
      exacts [h1 hx, h2 hx]

lemma getLast?_filter_of_pred (p : List Char → Bool) (l : List (List Char)) (x : List Char)
    (h : l.getLast? = some x) (hx : p x = true) :
    (l.filter p).getLast? = some x := by
  rw [← List.head?_reverse] at h ⊢
  rw [← List.filter_reverse]
  cases hr : l.reverse with
  | nil => rw [hr] at h; cases h
  | cons y ys =>
    rw [hr] at h
    injection h with h
    subst h
    simp [List.filter_cons, hx]

/-- The crux of the round trip: a target accepted by the allow-list ends in
`.py`, so its `.bak` backup path is a different path. -/
lemma backup_ne_target (t : String) (h : is_safe_to_modify t = true) :
    with_suffix t ".bak" ≠ t := by
  intro he
  obtain ⟨nm, hnm, hpy⟩ := safe_last_py t h
  rcases List.eq_nil_or_concat (splitChar '/' t.data) with hnil | ⟨init, lastp, hsplit⟩
  · exact splitChar_ne_nil '/' t.data hnil
  · rw [List.concat_eq_append] at hsplit
    have hd : joinChar '/' ((splitChar '/' t.data).dropLast ++
        [replaceSuffix ((splitChar '/' t.data).getLastD []) ".bak".data]) = t.data :=
      congrArg String.data he
    rw [hsplit, List.dropLast_concat, List.getLastD_concat] at hd
    have ht : joinChar '/' (splitChar '/' t.data) = t.data := joinChar_splitChar '/' t.data
    rw [hsplit] at ht
    have hsep : ∀ p ∈ splitChar '/' t.data, '/' ∉ p := sep_not_mem_splitChar '/' t.data
    rw [hsplit] at hsep
    have hsep_last : '/' ∉ lastp := hsep lastp (by simp)
    have hsep_repl : '/' ∉ replaceSuffix lastp ".bak".data :=
      not_mem_replaceSuffix lastp ".bak".data '/' hsep_last (by decide)
    have e1 := splitChar_joinChar '/' (init ++ [replaceSuffix lastp ".bak".data])
      (by simp)
      (by
        intro r hr
        rcases List.mem_append.mp hr with hx | hx
        · exact hsep r (List.mem_append.mpr (Or.inl hx))
        · rw [List.mem_singleton] at hx
          subst hx
          exact hsep_repl)
    have e2 := splitChar_joinChar '/' (init ++ [lastp]) (by simp) hsep
    rw [hd] at e1
    rw [ht] at e2
    have heq : init ++ [replaceSuffix lastp ".bak".data] = init ++ [lastp] := by
      rw [← e1, ← e2]
    have hlast : replaceSuffix lastp ".bak".data = lastp := by
      have h2 := congrArg List.getLast? heq
      rw [List.getLast?_concat, List.getLast?_concat] at h2
      injection h2
    have hbak : ".bak".data <:+ lastp := hlast ▸ suffix_replaceSuffix lastp ".bak".data
    have hne1 : lastp ≠ [] := by
      rcases hbak with ⟨u, hu⟩
      rw [← hu]
      simp
    have hne2 : lastp ≠ ['.'] := by
      rcases hbak with ⟨u, hu⟩
      intro hcontra
      rw [hcontra] at hu
      have := congrArg List.length hu
      simp [List.length_append] at this
    have hfilter : (normParts t).getLast? = some lastp := by
      unfold normParts
      apply getLast?_filter_of_pred
      · rw [hsplit, List.getLast?_concat]
      · have h1 : lastp.isEmpty = false := by
          cases lastp with
          | nil => exact absurd rfl hne1
          | cons a as => rfl
        simp [h1, hne2]
    rw [hfilter] at hnm
    injection hnm with hnm'
    rw [← hnm'] at hpy
    rcases hpy with ⟨u1, hu1⟩
    rcases hbak with ⟨u2, hu2⟩
    have e3 : lastp.getLast? = some 'y' := by
      rw [← hu1, ← List.head?_reverse]
      simp
    have e4 : lastp.getLast? = some 'k' := by
      rw [← hu2, ← List.head?_reverse]
      simp
    rw [e3] at e4
    injection e4 with e5
    exact absurd e5 (by decide)

/-- C3: every successful `self_modify` leaves the backup file holding exactly
the pre-modification content of the target (the backup is written before the
target is overwritten and the backup path, ending `.bak`, differs from the
allow-listed `.py` target), and an immediate `rollback_modification` on the
same path succeeds and restores the target to that exact content. -/
theorem self_modify_backup_roundtrip (parse : String → Option PyParseOk)
    (llm : Option (String → String)) (now : ℚ) (st : GenState)
    (target_file modification_request : String)
    (h : (self_modify parse llm now st target_file modification_request).1 = true) :
    ∃ original_code,
      st.fs target_file = some original_code ∧
      (self_modify parse llm now st target_file modification_request).2.fs
          (with_suffix target_file ".bak") = some original_code ∧
      (rollback_modification (self_modify parse llm now st target_file modification_request).2
          target_file).1 = true ∧
      (rollback_modification (self_modify parse llm now st target_file modification_request).2
          target_file).2.fs target_file = some original_code := by
  cases hs : is_safe_to_modify target_file with
  | false => simp [self_modify, hs] at h
  | true =>
    cases hfs : st.fs target_file with
    | none => simp [self_modify, hs, hfs] at h
    | some original_code =>
      cases llm with
      | none => simp [self_modify, hs, hfs] at h
      | some engine =>
        cases hv : validate_modification parse original_code
            (generate_modification engine original_code modification_request) with
        | false => simp [self_modify, hs, hfs, hv] at h
        | true =>
          have hne : with_suffix target_file ".bak" ≠ target_file :=
            backup_ne_target target_file hs
          have hsm : self_modify parse (some engine) now st target_file modification_request =
              (true, ⟨fsWrite (fsWrite st.fs (with_suffix target_file ".bak") original_code)
                  target_file (generate_modification engine original_code modification_request),
                st.modification_history ++
                  [⟨target_file, modification_request, now, with_suffix target_file ".bak"⟩]⟩) := by
            simp [self_modify, hs, hfs, hv]
          refine ⟨original_code, rfl, ?_, ?_, ?_⟩
          · rw [hsm]
            simp [fsWrite, hne]
          · rw [hsm]
            simp [rollback_modification, rollbackScan, List.reverse_append, fsWrite, hne]
          · rw [hsm]
            simp [rollback_modification, rollbackScan, List.reverse_append, fsWrite, hne]

/-- The LLM oracle of the C3 witness: replies with a fenced Python block. -/
def llmW3 : String → String := fun _ => "```python\nz = 1234567\n```"

/-- The initial state of the C3 witness: one allow-listed file on disk. -/
def stW3 : GenState := ⟨fun p => if p = "osa_w.py" then some "x = 1" else none, []⟩

/-- A concrete successful self-modification with its backup and rollback. -/
theorem self_modify_backup_roundtrip_witness :
    ∃ original_code,
      stW3.fs "osa_w.py" = some original_code ∧
      (self_modify parseAll (some llmW3) 0 stW3 "osa_w.py" "improve").2.fs
          (with_suffix "osa_w.py" ".bak") = some original_code ∧
      (rollback_modification (self_modify parseAll (some llmW3) 0 stW3 "osa_w.py" "improve").2
          "osa_w.py").1 = true ∧
      (rollback_modification (self_modify parseAll (some llmW3) 0 stW3 "osa_w.py" "improve").2
          "osa_w.py").2.fs "osa_w.py" = some original_code :=
  self_modify_backup_roundtrip parseAll (some llmW3) 0 stW3 "osa_w.py" "improve" (by decide)

/-! ### Template store and template-backed generation (`_initialize_templates`,
`_get_template_variables`, `_generate_with_templates`, `generate_code`) -/

/-- The `CodeTemplate` dataclass. -/
structure CodeTemplate where
  name : String
  language : ProgrammingLanguage
  template : String
  variables' : List String
  description : String
  deriving DecidableEq

/-- The `CodeGenerationRequest` dataclass (the unused `context` mapping is
modelled as an opaque association list). -/
structure CodeGenerationRequest where
  description : String
  code_type : CodeType
  language : ProgrammingLanguage
  requirements : List String
  constraints : List String
  examples : Option (List String) := none
  context : Option (List (String × String)) := none
  deriving DecidableEq

/-- The `GeneratedCode` dataclass. -/
structure GeneratedCode where
  code : String
  language : ProgrammingLanguage
  description : String
  tests : Option String := none
  documentation : Option String := none
  complexity_score : ℚ := 0
  quality_score : ℚ := 0
  deriving DecidableEq

/-- The `python_function` template of `_initialize_templates`. -/
def python_function_template : CodeTemplate :=
  { name := "python_function", language := .python,
    template := "def {function_name}({parameters}){type_hints}:\n    \"\"\"\n    {description}\n    \n    Args:\n        {args_description}\n    \n    Returns:\n        {return_description}\n    \"\"\"\n    {implementation}\n",
    variables' := ["function_name", "parameters", "type_hints", "description",
      "args_description", "return_description", "implementation"],
    description := "Template for Python functions" }

/-- The `python_class` template of `_initialize_templates`. -/
def python_class_template : CodeTemplate :=
  { name := "python_class", language := .python,
    template := "class {class_name}({base_classes}):\n    \"\"\"\n    {description}\n    \n    Attributes:\n        {attributes_description}\n    \"\"\"\n    \n    def __init__(self, {init_parameters}):\n        \"\"\"Initialize {class_name}\"\"\"\n        {init_implementation}\n    \n    {methods}\n",
    variables' := ["class_name", "base_classes", "description", "attributes_description",
      "init_parameters", "init_implementation", "methods"],
    description := "Template for Python classes" }

/-- The `python_async` template of `_initialize_templates`. -/
def python_async_template : CodeTemplate :=
  { name := "python_async", language := .python,
    template := "async def {function_name}({parameters}){type_hints}:\n    \"\"\"\n    {description}\n    \n    Async function for {purpose}\n    \"\"\"\n    {implementation}\n",
    variables' := ["function_name", "parameters", "type_hints", "description",
      "purpose", "implementation"],
    description := "Template for async Python functions" }

/-- `_initialize_templates`: the fixed key-to-template mapping. -/
def initialize_templates : List (String × CodeTemplate) :=
  [("python_function", python_function_template),
   ("python_class", python_class_template),
   ("python_async", python_async_template)]

/-- Dictionary lookup `self.templates[template_key]` guarded by
`template_key in self.templates`. -/
def lookupTemplate (key : String) : Option CodeTemplate :=
  (initialize_templates.find? (fun kv => kv.1 = key)).map (fun kv => kv.2)

/-- The `function_name` derivation inside `_get_template_variables`:
`re.sub('[^a-zA-Z0-9_]', '_', request.description.lower().replace(' ', '_'))[:30]`
(ASCII lower-casing; the regex substitution replaces each non-word character
by an underscore). -/
def function_name_of (description : String) : String :=
  ⟨(((description.data.map Char.toLower).map (fun c => if c = ' ' then '_' else c)).map
      (fun c => if isWordChar c then c else '_')).take 30⟩

/-- `_get_template_variables`. -/
def get_template_variables (request : CodeGenerationRequest) (template : CodeTemplate) :
    List (String × String) :=
  template.variables'.map (fun var =>
    if var = "description" then (var, request.description)
    else if var = "function_name" then (var, function_name_of request.description)
    else (var, "# TODO: " ++ var))

/-- Dictionary lookup in the variables mapping. -/
def lookupVar (vars : List (String × String)) (name : String) : Option String :=
  (vars.find? (fun kv => kv.1 = name)).map (fun kv => kv.2)

/-- `str.format` on the stored templates: substitute each `{name}` placeholder
by its value (fuelled to stay structurally recursive; the fuel `template.length`
is enough since every step consumes at least one character). -/
def formatTemplateAux (vars : List (String × String)) : Nat → List Char → List Char
  | 0, _ => []
  | _ + 1, [] => []
  | n + 1, '{' :: rest =>
    ((lookupVar vars ⟨rest.takeWhile (fun c => c ≠ '}')⟩).getD "").data ++
      formatTemplateAux vars n ((rest.dropWhile (fun c => c ≠ '}')).drop 1)
  | n + 1, c :: rest => c :: formatTemplateAux vars n rest

/-- `template.template.format(**variables)`. -/
def formatTemplate (template : List Char) (vars : List (String × String)) : List Char :=
  formatTemplateAux vars template.length template

/-- `_generate_with_templates`: fill the matching template, or fall back to the
single-line TODO comment. -/
def generate_with_templates (request : CodeGenerationRequest) : GeneratedCode :=
  match lookupTemplate (languageValue request.language ++ "_" ++ codeTypeValue request.code_type) with
  | some template =>
    { code := ⟨formatTemplate template.template.data (get_template_variables request template)⟩,
      language := request.language, description := request.description }
  | none =>
    { code := "# TODO: Implement " ++ request.description,
      language := request.language, description := request.description }

/-- `generate_code`, with the external collaborators as oracles:
`solution_finder_available` models the module flag `SOLUTION_FINDER_AVAILABLE`,
`should_use_library` the solution finder's verdict, and `library_result` /
`langchain_result` the outcomes of the two external generation paths. -/
def generate_code (solution_finder_available should_use_library : Bool)
    (library_result : GeneratedCode) (langchain_configured : Bool)
    (langchain_result : GeneratedCode) (request : CodeGenerationRequest) : GeneratedCode :=
  if solution_finder_available && should_use_library then library_result
  else if langchain_configured then langchain_result
  else generate_with_templates request

/-- A placeholder result for the unused oracle paths. -/
def gcDummy : GeneratedCode := { code := "", language := .python, description := "" }

/-- The request of the claim's cited scenario. -/
def reqAdd : CodeGenerationRequest :=
  { description := "add two numbers", code_type := .function, language := .python,
    requirements := [], constraints := [] }

set_option maxRecDepth 8192 in
/-- A counterexample to C4's cited scenario: the request `{description: "add
two numbers", code_type: function, language: python}` has the matching
template key `python_function`, so with no library match and no LLM the
result is the filled `python_function` template, not the TODO line. -/
theorem generate_code_python_function_counterexample :
    (generate_code false false gcDummy false gcDummy reqAdd).code =
      "def add_two_numbers(# TODO: parameters)# TODO: type_hints:\n    \"\"\"\n    add two numbers\n    \n    Args:\n        # TODO: args_description\n    \n    Returns:\n        # TODO: return_description\n    \"\"\"\n    # TODO: implementation\n" ∧
      (generate_code false false gcDummy false gcDummy reqAdd).code ≠
        "# TODO: Implement add two numbers" := by
  refine ⟨by decide, by decide⟩

/-- C4 (amended): with no library recommendation and no LLM configured, a
request whose `<language>_<code_type>` key matches no stored template yields
exactly the single line `# TODO: Implement ` followed by the description
verbatim (the claim's cited python/function request instead matches the
`python_function` template and yields the filled template). -/
theorem generate_code_todo_fallback (solution_finder_available should_use_library : Bool)
    (library_result langchain_result : GeneratedCode) (request : CodeGenerationRequest)
    (hkey : lookupTemplate (languageValue request.language ++ "_" ++
        codeTypeValue request.code_type) = none)
    (hlib : (solution_finder_available && should_use_library) = false) :
    generate_code solution_finder_available should_use_library library_result false
        langchain_result request =
      { code := "# TODO: Implement " ++ request.description,
        language := request.language, description := request.description } := by
  simp [generate_code, hlib, generate_with_templates, hkey]

/-- The witness request: the key `python_script` matches no stored template. -/
def reqScript : CodeGenerationRequest :=
  { description := "add two numbers", code_type := .script, language := .python,
    requirements := [], constraints := [] }

/-- A concrete unmatched-key request yields the verbatim TODO line. -/
theorem generate_code_todo_fallback_witness :
    generate_code false false gcDummy false gcDummy reqScript =
      { code := "# TODO: Implement add two numbers", language := .python,
        description := "add two numbers" } :=
  generate_code_todo_fallback false false gcDummy gcDummy reqScript (by decide) rfl

lemma lookupVar_function_name (request : CodeGenerationRequest) :
    ∀ vars : List String, "function_name" ∈ vars →
      lookupVar (vars.map (fun var =>
        if var = "description" then (var, request.description)
        else if var = "function_name" then (var, function_name_of request.description)
        else (var, "# TODO: " ++ var))) "function_name" =
        some (function_name_of request.description)
  | [], h => absurd h (List.not_mem_nil _)
  | v :: vs, h => by
    by_cases hv : v = "function_name"
    · subst hv
      simp [lookupVar, List.find?]
    · have hmem : "function_name" ∈ vs := by
        rcases List.mem_cons.mp h with h1 | h1
        · exact absurd h1.symm hv
        · exact h1
      have ih := lookupVar_function_name request vs hmem
      simp only [List.map_cons, lookupVar] at ih ⊢
      rw [List.find?_cons_of_neg]
      · exact ih
      · by_cases h1 : v = "description" <;> simp [h1, hv]

/-- C6 (amended): the value bound to the `function_name` placeholder is the
description lower-cased, spaces turned to underscores, every character
outside `[A-Za-z0-9_]` REPLACED by an underscore (not stripped), then
truncated to 30 characters. -/
theorem function_name_variable (request : CodeGenerationRequest) (template : CodeTemplate)
    (h : "function_name" ∈ template.variables') :
    lookupVar (get_template_variables request template) "function_name" =
      some ⟨(((request.description.data.map Char.toLower).map
          (fun c => if c = ' ' then '_' else c)).map
          (fun c => if isWordChar c then c else '_')).take 30⟩ :=
  lookupVar_function_name request template.variables' h

/-- The derivation as the claim words it: characters outside `[A-Za-z0-9_]`
stripped (removed) instead of replaced. -/
def function_name_spec (description : String) : String :=
  ⟨(((description.data.map Char.toLower).map (fun c => if c = ' ' then '_' else c)).filter
      isWordChar).take 30⟩

/-- A counterexample to C6 as stated: for the description `a-b` the source
substitutes `a_b` (the hyphen is replaced by an underscore), while the
claim's stripping would give `ab`. -/
theorem function_name_not_stripped_counterexample :
    lookupVar (get_template_variables ⟨"a-b", .function, .python, [], [], none, none⟩
        python_function_template) "function_name" = some "a_b" ∧
      function_name_spec "a-b" = "ab" ∧ ("a_b" : String) ≠ "ab" := by
  refine ⟨by decide, by decide, by decide⟩

/-- A concrete `function_name` substitution through the amended theorem. -/
theorem function_name_variable_witness :
    lookupVar (get_template_variables reqAdd python_function_template) "function_name" =
      some "add_two_numbers" :=
  (function_name_variable reqAdd python_function_template (by decide)).trans (by decide)

/-! ### Lemmas about the fenced-block extractor -/

/-- The backtick character, named to keep it out of the source text. -/
def backtick : Char := '`'

lemma startsWithTicks_triple (rest : List Char) :
    startsWithTicks (backtick :: backtick :: backtick :: rest) = true := by
  simp [startsWithTicks, backtick]

lemma startsWithTicks_cons_false (c : Char) (l : List Char) (hc : c ≠ backtick) :
    startsWithTicks (c :: l) = false := by
  cases l with
  | nil => rfl
  | cons c2 l2 =>
    cases l2 with
    | nil => rfl
    | cons c3 l3 =>
      simp [startsWithTicks, backtick]
      intro h
      exact absurd h (by simpa [backtick] using hc)

lemma splitAtTicks_clean : ∀ payload rest : List Char, backtick ∉ payload →
    splitAtTicks (payload ++ ("```".data ++ rest)) = some (payload, rest)
  | [], rest, _ => by
    show splitAtTicks (backtick :: (backtick :: backtick :: rest)) = some ([], rest)
    simp only [splitAtTicks, startsWithTicks_triple, if_true]
    rfl
  | c :: payload', rest, h => by
    have hc : c ≠ backtick := fun e => h (e ▸ List.mem_cons_self c payload')
    have ih : splitAtTicks (payload' ++ '\x60' :: '\x60' :: '\x60' :: rest) =
        some (payload', rest) := by
      simpa using splitAtTicks_clean payload' rest (fun hm => h (List.mem_cons_of_mem _ hm))
    show splitAtTicks (c :: (payload' ++ ("```".data ++ rest))) = some (c :: payload', rest)
    simp [splitAtTicks, startsWithTicks_cons_false c _ hc, ih]

lemma dropWhile_append_of_all (p : Char → Bool) :
    ∀ l r : List Char, (∀ c ∈ l, p c = true) → List.dropWhile p (l ++ r) = List.dropWhile p r
  | [], r, _ => rfl
  | c :: l', r, h => by
    have hc : p c = true := h c (List.mem_cons_self c l')
    have ih := dropWhile_append_of_all p l' r (fun d hd => h d (List.mem_cons_of_mem _ hd))
    simp only [List.cons_append, List.dropWhile_cons, hc, if_true, ih]

lemma fenceBody_tag (tag rest : List Char) (htag : ∀ c ∈ tag, isWordChar c = true) :
    fenceBody (tag ++ '\n' :: rest) = some rest := by
  unfold fenceBody
  rw [dropWhile_append_of_all isWordChar tag _ htag]
  rw [show List.dropWhile isWordChar ('\n' :: rest) = '\n' :: rest from by
    simp [List.dropWhile_cons, isWordChar]]
  rfl

lemma findFirstFence_clean :
    ∀ pre : List Char, backtick ∉ pre → ∀ tag payload post : List Char,
      (∀ c ∈ tag, isWordChar c = true) → backtick ∉ payload →
      findFirstFence (pre ++ ("```".data ++ (tag ++ '\n' :: (payload ++ ("```".data ++ post))))) =
        some payload
  | [], _, tag, payload, post, htag, hpay => by
    have hsp : splitAtTicks (payload ++ '\x60' :: '\x60' :: '\x60' :: post) =
        some (payload, post) := by
      simpa using splitAtTicks_clean payload post hpay
    have hfb : fenceBody (tag ++ '\n' :: (payload ++ '\x60' :: '\x60' :: '\x60' :: post)) =
        some (payload ++ '\x60' :: '\x60' :: '\x60' :: post) := fenceBody_tag tag _ htag
    show findFirstFence (backtick :: (backtick :: backtick ::
      (tag ++ '\n' :: (payload ++ ("```".data ++ post))))) = some payload
    simp [findFirstFence, startsWithTicks_triple, hfb, hsp]
  | c :: pre', hpre, tag, payload, post, htag, hpay => by
    have hc : c ≠ backtick := fun e => hpre (e ▸ List.mem_cons_self c pre')
    have ih : findFirstFence (pre' ++ '\x60' :: '\x60' :: '\x60' ::
        (tag ++ '\n' :: (payload ++ '\x60' :: '\x60' :: '\x60' :: post))) = some payload := by
      simpa using findFirstFence_clean pre' (fun hm => hpre (List.mem_cons_of_mem _ hm))
        tag payload post htag hpay
    show findFirstFence (c :: (pre' ++ ("```".data ++ (tag ++ '\n' ::
      (payload ++ ("```".data ++ post)))))) = some payload
    simp [findFirstFence, startsWithTicks_cons_false c _ hc, ih]

/-- A counterexample to C5 as stated: with two fenced blocks the lazy `(.*?)`
stops at the FIRST closing fence — the result is the first block payload
`a`, not the text spanning to the last closing fence. -/
theorem extract_code_lazy_counterexample :
    extract_code_from_response "```\na\n```\nmid\n```\nb\n```" = "a" ∧
      ("a" : String) ≠ "a\n```\nmid\n```\nb" := by
  refine ⟨by decide, by decide⟩

/-- C5 (amended): for a response containing a fenced block (language tag
optional, payload spanning newlines), `_extract_code_from_response` returns
the trimmed payload of the first block, matched lazily up to the FIRST
closing fence. -/
theorem extract_code_first_fence (pre tag payload post : List Char)
    (hpre : backtick ∉ pre) (htag : ∀ c ∈ tag, isWordChar c = true)
    (hpay : backtick ∉ payload) :
    extract_code_from_response
        ⟨pre ++ ("```".data ++ (tag ++ '\n' :: (payload ++ ("```".data ++ post))))⟩ =
      pyStrip ⟨payload⟩ := by
  unfold extract_code_from_response
  rw [show (⟨pre ++ ("```".data ++ (tag ++ '\n' :: (payload ++ ("```".data ++ post))))⟩ :
      String).data = pre ++ ("```".data ++ (tag ++ '\n' :: (payload ++ ("```".data ++ post))))
    from rfl]
  rw [findFirstFence_clean pre hpre tag payload post htag hpay]

/-- A concrete tagged fenced block in narrative text is extracted verbatim. -/
theorem extract_code_first_fence_witness :
    extract_code_from_response
        ⟨"Answer:\n".data ++ ("```".data ++ ("python".data ++ '\n' ::
          ("x = 1\ny = 2\n".data ++ ("```".data ++ "\ndone".data))))⟩ =
      pyStrip "x = 1\ny = 2\n" :=
  extract_code_first_fence "Answer:\n".data "python".data "x = 1\ny = 2\n".data "\ndone".data
    (by decide) (by decide) (by decide)

/-! ### `get_modification_history` returns a copy (a small object-heap model).

Python list mutation is aliasing-sensitive, so the generator's list field is
modelled through a heap of list objects addressed by references: the
generator holds `history_ref`, `get_modification_history` allocates the fresh
reference `next_ref` as `self.modification_history.copy()` does, and a caller
mutates a list object in place through its reference. -/

/-- The generator's object heap: list objects by reference, the reference of
the `modification_history` field, and the next fresh allocation. -/
structure GeneratorMem where
  heap : Nat → List ModRecord
  history_ref : Nat
  next_ref : Nat

/-- `get_modification_history`: `return self.modification_history.copy()` —
allocate a fresh list object holding the same records and return its
reference. -/
def get_modification_history (m : GeneratorMem) : Nat × GeneratorMem :=
  (m.next_ref,
    { heap := fun r => if r = m.next_ref then m.heap m.history_ref else m.heap r,
      history_ref := m.history_ref, next_ref := m.next_ref + 1 })

/-- A caller-side in-place mutation (append, remove, clear, ...) of the list
object behind reference `r`. -/
def mutate_list (m : GeneratorMem) (r : Nat) (f : List ModRecord → List ModRecord) :
    GeneratorMem :=
  { m with heap := fun q => if q = r then f (m.heap q) else m.heap q }

/-- C10: `get_modification_history` hands out a fresh copy: the returned list
object holds the history's records, and an arbitrary in-place mutation of the
returned object leaves the generator's own `modification_history` — and hence
any later `rollback_modification` on it — unchanged.  The hypothesis is the
allocator freshness invariant (the generator's list is not the about-to-be
allocated object). -/
theorem get_modification_history_returns_copy (m : GeneratorMem)
    (f : List ModRecord → List ModRecord) (fs : String → Option String) (p : String)
    (href : m.history_ref ≠ m.next_ref) :
    ((get_modification_history m).2.heap (get_modification_history m).1 =
      m.heap m.history_ref) ∧
    ((mutate_list (get_modification_history m).2 (get_modification_history m).1 f).heap
        ((get_modification_history m).2.history_ref) = m.heap m.history_ref) ∧
    (rollback_modification ⟨fs, (mutate_list (get_modification_history m).2
          (get_modification_history m).1 f).heap
        ((get_modification_history m).2.history_ref)⟩ p =
      rollback_modification ⟨fs, m.heap m.history_ref⟩ p) := by
  refine ⟨by simp [get_modification_history], ?_, ?_⟩
  · simp [get_modification_history, mutate_list, href]
  · rw [show (mutate_list (get_modification_history m).2 (get_modification_history m).1 f).heap
        ((get_modification_history m).2.history_ref) = m.heap m.history_ref from by
      simp [get_modification_history, mutate_list, href]]

/-- The generator heap of the C10 witness. -/
def memW : GeneratorMem := ⟨fun _ => [], 0, 1⟩

/-- Mutating the returned copy concretely: appending a record to it leaves the
generator's history, and a rollback driven by it, unchanged. -/
theorem get_modification_history_returns_copy_witness :
    ((get_modification_history memW).2.heap (get_modification_history memW).1 =
      memW.heap memW.history_ref) ∧
    ((mutate_list (get_modification_history memW).2 (get_modification_history memW).1
          (fun l => l ++ [⟨"a", "r", 0, "b"⟩])).heap
        ((get_modification_history memW).2.history_ref) = memW.heap memW.history_ref) ∧
    (rollback_modification ⟨fun _ => none, (mutate_list (get_modification_history memW).2
          (get_modification_history memW).1 (fun l => l ++ [⟨"a", "r", 0, "b"⟩])).heap
        ((get_modification_history memW).2.history_ref)⟩ "a" =
      rollback_modification ⟨fun _ => none, memW.heap memW.history_ref⟩ "a") :=
  get_modification_history_returns_copy memW (fun l => l ++ [⟨"a", "r", 0, "b"⟩])
    (fun _ => none) "a" (by decide)

end AutoCoder
